import Mathlib

/-!
Verification of the `pubsub` package (simple hub and structured hub).

The development shallowly embeds the two source files:
* `hub.go` (simple hub): subscriber registry, topic matching, publish
  fan-out with wait-group completion tracking, unsubscribe;
* `structuredhub.go`: payload canonicalization to `map[string]interface{}`,
  annotation-default merging, handler-shape validation, and the
  deserializing wrapper closure.

Payload values (`interface{}` contents) are modelled by `JValue`.  No
operation of the hub ever inspects the inner structure of a payload value
(maps are merged and looked up by key; struct conversion only checks the
JSON kind of each field value), so nested arrays/objects inside map values
are not distinguished; `jraw` stands for a Go value that `json.Marshal`
rejects (a channel, function, ...), which is the one payload-value
distinction the code's error paths depend on.
-/

/-- A payload value stored under a key of a `map[string]interface{}`. -/
inductive JValue where
  | jnull
  | jbool (b : Bool)
  | jnum (n : Int)
  | jstr (s : String)
  | jraw (tag : Nat)
deriving DecidableEq, Repr

/-- The canonical message representation `map[string]interface{}`,
modelled as an association list (Go map iteration order is unspecified;
all stated properties are lookup-based). -/
abbrev JMap := List (String × JValue)

/-- Lookup `m[k]` in a Go map. -/
def mapLookup (m : JMap) (k : String) : Option JValue :=
  match m with
  | [] => none
  | (k1, v1) :: rest => if k1 = k then some v1 else mapLookup rest k

/-- Go map assignment `m[k] = v`: replaces the binding of `k` if present,
otherwise adds one. -/
def mapInsert (m : JMap) (k : String) (v : JValue) : JMap :=
  match m with
  | [] => [(k, v)]
  | (k1, v1) :: rest =>
      if k1 = k then (k, v) :: rest else (k1, v1) :: mapInsert rest k v

/-- json.Marshal succeeds on a value iff it is not a channel/function/...;
`jraw` models the failing kinds. -/
def jsonSerializable : JValue → Bool
  | .jraw _ => false
  | _ => true

/-- json.Marshal of a `map[string]interface{}` succeeds iff every value in
it is serializable. -/
def mapSerializable (m : JMap) : Bool :=
  m.all (fun kv => jsonSerializable kv.2)

/-- The annotation-merging loop of structuredHub.Publish (lines 41-45):
for each annotation key not already present in `asMap`, insert the
default value; caller-supplied entries are left untouched. -/
def mergeAnnotations (asMap : JMap) (anns : JMap) : JMap :=
  anns.foldl
    (fun acc kv =>
      if (mapLookup acc kv.1).isSome then acc else mapInsert acc kv.1 kv.2)
    asMap

/-! ## Simple hub (hub.go) -/

/-- A compiled topic pattern.  `newSubscriber` (in a source file not under
src/) compiles the pattern string into a regexp; `compiles` records whether
compilation succeeds and `matchString` is the compiled matcher
(`regexp.MatchString`), a pure function of the topic string. -/
structure TopicPattern where
  compiles : Bool
  matchString : String → Bool

/-- A registered subscription: unique `id` plus the compiled topic
pattern.  The handler callable and per-subscriber queue are opaque to the
hub; dispatch is recorded by which subscribers are handed a closure. -/
structure subscriber where
  id : Int
  topic : TopicPattern

/-- subscriber.matchTopic (hub.go lines 49-51): the subscription matches a
published topic iff its pattern's matcher accepts the literal topic string. -/
def matchTopic (s : subscriber) (topic : String) : Bool :=
  s.topic.matchString topic

/-- The simple hub's registry state: ordered subscriber list and the
monotonically increasing id counter `idx`. -/
structure simplehub where
  subscribers : List subscriber
  idx : Int

/-- NewSimpleHub: empty registry, counter at zero. -/
def NewSimpleHub : simplehub := ⟨[], 0⟩

/-- doneHandle (hub.go lines 32-38): wraps the `done` channel that the
publish goroutine closes once the wait-group count returns to zero.
`pending` is the wait-group count right after dispatch (one `Add(1)` per
matched subscriber). -/
structure doneHandle where
  pending : Nat
deriving DecidableEq, Repr

/-- The `done` channel of the handle is closed (so `Complete` is
receivable) after `completed` of the dispatched closures have run their
deferred `wait.Done()` exactly when all `pending` of them have. -/
def doneHandle.resolvedAfter (d : doneHandle) (completed : Nat) : Bool :=
  d.pending ≤ completed

/-- Errors surfaced synchronously by Subscribe. -/
inductive SubErr where
  | invalidPattern
  | invalidHandler (msg : String)
deriving DecidableEq, Repr

/-- The data argument handed through the simple hub untouched:
either a `map[string]interface{}` (always the case for payloads produced
by the structured hub) or any other Go value. -/
inductive SimpleData where
  | smap (m : JMap)
  | sother (tag : Nat)
deriving DecidableEq, Repr

/-- What simplehub.Publish (hub.go lines 53-76) returns and does: the
Completer and nil error, plus the list of subscribers handed a
notification closure (in registry order), and the payload each closure
will pass to its handler. -/
structure PublishResult where
  completer : Option doneHandle
  perr : Option SubErr
  dispatched : List subscriber
  payload : SimpleData

/-- simplehub.Publish: snapshots the registry under the mutex, hands one
closure to every subscriber whose pattern matches the topic (wait.Add(1)
each), and returns a fresh doneHandle and nil error immediately.  The
registry and counter are not written. -/
def simplehub.Publish (h : simplehub) (topic : String) (data : SimpleData) :
    PublishResult :=
  let matched := h.subscribers.filter (fun s => matchTopic s topic)
  { completer := some ⟨matched.length⟩
    perr := none
    dispatched := matched
    payload := data }

/-- Modelled from the spec: `newSubscriber` lives in a source file not
under src/; per the spec it compiles the topic pattern and fails with an
invalid-pattern error when the pattern does not compile, otherwise yields
a subscription (its id is assigned afterwards by Subscribe). -/
def newSubscriber (topic : TopicPattern) : Except SubErr subscriber :=
  if topic.compiles then .ok ⟨0, topic⟩ else .error .invalidPattern

/-- The unsubscribe token (hub.go lines 106-109): records the assigned id. -/
structure handle where
  id : Int
deriving DecidableEq, Repr

/-- simplehub.Subscribe (hub.go lines 78-91): on success assigns the
current counter value as the new subscription's id, increments the
counter, appends the subscription, and returns a token bound to that id;
on failure the hub is unchanged. -/
def simplehub.Subscribe (h : simplehub) (topic : TopicPattern) :
    Except SubErr (simplehub × handle) :=
  match newSubscriber topic with
  | .error e => .error e
  | .ok sub =>
      .ok ({ h with
              subscribers := h.subscribers ++ [{ sub with id := h.idx }]
              idx := h.idx + 1 },
           ⟨h.idx⟩)

/-- The removal scan of simplehub.unsubscribe (hub.go lines 97-103):
remove the first subscription whose id matches, keeping the rest in
order; if none matches, leave the list as is. -/
def removeFirst (l : List subscriber) (i : Int) : List subscriber :=
  match l with
  | [] => []
  | s :: rest => if s.id = i then rest else s :: removeFirst rest i

/-- simplehub.unsubscribe (hub.go lines 93-104): removes the matching
subscription (if any) from the registry; the counter is untouched. -/
def simplehub.unsubscribe (h : simplehub) (i : Int) : simplehub :=
  { h with subscribers := removeFirst h.subscribers i }

/-- handle.Unsubscribe (hub.go lines 111-113): delegates to the hub's
unsubscribe with the token's id. -/
def handle.Unsubscribe (hd : handle) (h : simplehub) : simplehub :=
  simplehub.unsubscribe h hd.id

/-! ## Structured hub: publish-side canonicalization (structuredhub.go) -/

/-- The dynamic shape of the `data interface{}` argument to
structuredHub.Publish, split by the cases toStringMap distinguishes:
* `goNil`: data is nil, so `reflect.TypeOf(data)` is the nil Type;
* `goMap m`: dynamic type is exactly `map[string]interface{}`;
* `goNamedMap m`: a defined type whose underlying type is
  `map[string]interface{}` (assignable to it, but the type assertion
  assertion of the map type fails);
* `goRecord fields`: any other value that json.Marshal renders as a JSON
  object with the given fields (a struct, a `map[string]int`, ...);
* `goNonObject v`: a value marshalling to non-object JSON (a number, a
  string, a slice, ...), so unmarshalling into a map fails;
* `goUnserializable`: a value json.Marshal rejects outright. -/
inductive GoData where
  | goNil
  | goMap (m : JMap)
  | goNamedMap (m : JMap)
  | goRecord (fields : JMap)
  | goNonObject (v : JValue)
  | goUnserializable
deriving DecidableEq, Repr

/-- Errors returned by toStringMap / structured Publish. -/
inductive PubErr where
  | assignableNotMap
  | marshalErr
  | unmarshalErr
deriving DecidableEq, Repr

/-- Outcome of toStringMap: a canonical map, an error, or a runtime
panic. -/
inductive TSMResult where
  | ok (m : JMap)
  | fail (e : PubErr)
  | panicked
deriving DecidableEq, Repr

/-- structuredHub.toStringMap (structuredhub.go lines 49-69).
For nil data, `reflect.TypeOf(data)` returns the nil Type and the method
call `dataType.AssignableTo(resultType)` on that nil interface value
panics: no branch of the function handles nil, hence `panicked`.
A value whose type is assignable to `map[string]interface{}` passes the
assignability test; the subsequent type assertion succeeds only when the
dynamic type is exactly that map type, otherwise the "assignable ... but
isn't one?" error is returned.  All other data is round-tripped through
json.Marshal / json.Unmarshal into a generic map, with the two
annotated error returns. -/
def toStringMap (data : GoData) : TSMResult :=
  match data with
  | .goNil => .panicked
  | .goMap m => .ok m
  | .goNamedMap _ => .fail .assignableNotMap
  | .goRecord fields =>
      if mapSerializable fields then .ok fields else .fail .marshalErr
  | .goNonObject _ => .fail .unmarshalErr
  | .goUnserializable => .fail .marshalErr

/-- The structured hub: an embedded simple hub plus the fixed annotation
defaults supplied at construction. -/
structure structuredHub where
  hub : simplehub
  annotations : JMap

/-- Outcome of structuredHub.Publish: either the basic hub's result (a
non-nil Completer and nil error), or a nil Completer with a non-nil
error, or the panic propagated out of toStringMap. -/
inductive PublishOutcome where
  | ok (r : PublishResult)
  | fail (e : PubErr)
  | panicked

/-- The Completer the caller receives from a structured Publish. -/
def PublishOutcome.completerOf : PublishOutcome → Option doneHandle
  | .ok r => r.completer
  | _ => none

/-- The subscribers handed a notification closure by a structured
Publish (none unless the basic hub's Publish was reached). -/
def PublishOutcome.dispatchedOf : PublishOutcome → List subscriber
  | .ok r => r.dispatched
  | _ => []

/-- structuredHub.Publish (structuredhub.go lines 36-47): canonicalize
the data; on error return (nil, err) without touching the basic hub;
otherwise merge the annotation defaults into the keys not already present
and delegate to simplehub.Publish with the canonical map as payload. -/
def structuredHub.Publish (h : structuredHub) (topic : String)
    (data : GoData) : PublishOutcome :=
  match toStringMap data with
  | .panicked => .panicked
  | .fail e => .fail e
  | .ok asMap =>
      .ok (simplehub.Publish h.hub topic
            (.smap (mergeAnnotations asMap h.annotations)))

/-! ## Structured hub: subscribe-side validation and deserialization -/

/-- Go field types supported in the modelled record shapes. -/
inductive FType where
  | fstr
  | fint
  | fbool
deriving DecidableEq, Repr

/-- The reflect.Type of one parameter of a candidate handler, split by the
cases checkHandler distinguishes: kind String; kind Struct (with the
record's field shape); the exact type `map[string]interface{}`; some
other map type (same kind, different type identity); the `error`
interface (kind Interface, Name() = "error"); another interface; and
anything else. -/
inductive ArgType where
  | aString
  | aStruct (shape : List (String × FType))
  | aMapStringInterface
  | aOtherMap
  | aErrorInterface
  | aOtherInterface (nm : String)
  | aOther
deriving DecidableEq, Repr

/-- reflect kinds, as coarse as checkHandler needs. -/
inductive GoKind where
  | kString
  | kStruct
  | kMap
  | kInterface
  | kOther
deriving DecidableEq, Repr

/-- reflect.Type.Kind() of a parameter type. -/
def argKind : ArgType → GoKind
  | .aString => .kString
  | .aStruct _ => .kStruct
  | .aMapStringInterface => .kMap
  | .aOtherMap => .kMap
  | .aErrorInterface => .kInterface
  | .aOtherInterface _ => .kInterface
  | .aOther => .kOther

/-- reflect.Type.Name() of a parameter type (only interface names are
ever inspected by the code). -/
def argName : ArgType → String
  | .aErrorInterface => "error"
  | .aOtherInterface nm => nm
  | _ => ""

/-- The reflect.Type of the candidate handler value itself: a function
type with its parameter types and result count, a non-function, or the
nil reflect.Type obtained when the caller passes a nil handler
(`reflect.TypeOf(nil)` returns nil). -/
inductive HandlerType where
  | hfunc (ins : List ArgType) (numOut : Nat)
  | notFunc
  | hnil
deriving DecidableEq, Repr

/-- Outcome of checkHandler: the second parameter's type, an error, or a
runtime panic. -/
inductive CheckHandlerResult where
  | ok (rt : ArgType)
  | fail (e : SubErr)
  | panicked
deriving DecidableEq, Repr

/-- structuredHub.checkHandler (structuredhub.go lines 121-144): the
handler must be a func with three parameters and no results; the first
parameter string-kinded; the second either struct-kinded or exactly
`map[string]interface{}`; the third the `error` interface.  Returns the
second parameter's type.  For a nil handler, `reflect.TypeOf(handler)`
is the nil Type and the method call `t.Kind()` on that nil interface
value panics: no branch of the function handles nil, hence
`panicked`. -/
def checkHandler (t : HandlerType) : CheckHandlerResult :=
  match t with
  | .hnil => .panicked
  | .notFunc => .fail (.invalidHandler "handler of type not valid")
  | .hfunc [arg1, arg2, arg3] 0 =>
      if argKind arg1 != .kString then
        .fail (.invalidHandler
          "incorrect handler signature, first arg should be a string for topic")
      else if argKind arg2 != .kStruct && arg2 != .aMapStringInterface then
        .fail (.invalidHandler
          "incorrect handler signature, second arg should be a structure for data")
      else if argKind arg3 != .kInterface || argName arg3 != "error" then
        .fail (.invalidHandler
          "incorrect handler signature, third arg should error for deserialization errors")
      else
        .ok arg2
  | .hfunc _ _ => .fail (.invalidHandler "incorrect handler signature")

/-- The value passed as the handler's second argument: the canonical map
itself, a record value, or the zero value of some other parameter type
(unreachable for handlers accepted by checkHandler). -/
inductive HandlerValue where
  | hmap (m : JMap)
  | hstruct (fields : List (String × JValue))
  | hother
deriving DecidableEq, Repr

/-- Errors put into the handler's error argument by the wrapper. -/
inductive DeliverErr where
  | badPublishData
  | convMarshal
  | convUnmarshal
deriving DecidableEq, Repr

/-- The zero value of a field type (what `reflect.New` starts from and
what json.Unmarshal leaves untouched). -/
def zeroOf : FType → JValue
  | .fstr => .jstr ""
  | .fint => .jnum 0
  | .fbool => .jbool false

/-- The zero value of a record shape. -/
def zeroStruct (shape : List (String × FType)) : List (String × JValue) :=
  shape.map (fun nt => (nt.1, zeroOf nt.2))

/-- The zero value of a handler's data-parameter type,
`reflect.Indirect(reflect.New(rt))`: the nil map for the map type, the
all-zero record for a struct type. -/
def zeroValue : ArgType → HandlerValue
  | .aMapStringInterface => .hmap []
  | .aStruct shape => .hstruct (zeroStruct shape)
  | _ => .hother

/-- json.Unmarshal of a single JSON value into a struct field of the
given type: null is a no-op (keeps the zero value, no error); a value of
the matching kind decodes to itself; any other kind is an
UnmarshalTypeError (`none`). -/
def coerce (ty : FType) (v : JValue) : Option JValue :=
  match ty, v with
  | _, .jnull => some (zeroOf ty)
  | .fstr, .jstr s => some (.jstr s)
  | .fint, .jnum n => some (.jnum n)
  | .fbool, .jbool b => some (.jbool b)
  | _, _ => none

/-- json.Unmarshal of a JSON object into a fresh zero record of the given
shape.  Per encoding/json semantics, a field whose JSON value has the
wrong kind is skipped (left at its zero value) and decoding continues;
the earliest such mismatch is reported as the returned error.  Keys of
the object matching no field are ignored; fields absent from the object
keep their zero value. -/
def structUnmarshal (shape : List (String × FType)) (m : JMap) :
    List (String × JValue) × Option DeliverErr :=
  (shape.map (fun nt =>
      (nt.1,
       match mapLookup m nt.1 with
       | none => zeroOf nt.2
       | some v => (coerce nt.2 v).getD (zeroOf nt.2))),
   if shape.any (fun nt =>
        match mapLookup m nt.1 with
        | none => false
        | some v => (coerce nt.2 v).isNone)
   then some .convUnmarshal else none)

/-- structuredHub.toHanderType (structuredhub.go lines 102-117): if the
handler's data type is exactly the map type, pass the map through with a
nil error; otherwise allocate a zero value of the type, re-marshal the
map (failing if some value in it is unserializable) and unmarshal into
the record, returning the (possibly partially populated) value together
with the first error, if any. -/
def toHanderType (rt : ArgType) (m : JMap) : HandlerValue × Option DeliverErr :=
  match rt with
  | .aMapStringInterface => (.hmap m, none)
  | .aStruct shape =>
      if mapSerializable m then
        let r := structUnmarshal shape m
        (.hstruct r.1, r.2)
      else
        (.hstruct (zeroStruct shape), some .convMarshal)
  | _ => (zeroValue rt, some .convUnmarshal)

/-- One call of the original handler `f.Call(args)`: the topic, the data
value, and the contents of the error argument. -/
structure Invocation where
  topic : String
  value : HandlerValue
  errArg : Option DeliverErr
deriving DecidableEq, Repr

/-- The `deserialize` wrapper closure built by structuredHub.Subscribe
(structuredhub.go lines 79-98), as the list of calls it makes to the
original handler on one notification carrying `data`: if the payload is
not a `map[string]interface{}`, call with the zero value and a
"bad publish data" error; otherwise call with whatever toHanderType
produced.  Every path ends in the single unconditional `f.Call`. -/
def deserialize (rt : ArgType) (t : String) (data : SimpleData) :
    List Invocation :=
  match data with
  | .sother _ => [⟨t, zeroValue rt, some .badPublishData⟩]
  | .smap m =>
      let r := toHanderType rt m
      [⟨t, r.1, r.2⟩]

/-- Outcome of a structured-hub Subscribe: a new hub state plus the
unsubscribe token, a synchronous error, or the panic propagated out of
checkHandler on a nil handler. -/
inductive SubscribeOutcome where
  | ok (h2 : structuredHub) (hd : handle)
  | fail (e : SubErr)
  | panicked

/-- Whether a Subscribe outcome is a synchronously returned
invalid-handler error. -/
def SubscribeOutcome.isInvalidHandlerFail : SubscribeOutcome → Bool
  | .fail (.invalidHandler _) => true
  | _ => false

/-- structuredHub.Subscribe (structuredhub.go lines 72-100): validate the
handler shape; on failure return the error with the hub untouched (a nil
handler panics inside checkHandler before anything is registered); on
success register the deserialize wrapper with the basic hub (which
validates the pattern and assigns the id). -/
def structuredHub.Subscribe (h : structuredHub) (topic : TopicPattern)
    (handlerType : HandlerType) : SubscribeOutcome :=
  match checkHandler handlerType with
  | .panicked => .panicked
  | .fail e => .fail e
  | .ok _rt =>
      match simplehub.Subscribe h.hub topic with
      | .error e => .fail e
      | .ok (hub2, hd) => .ok { h with hub := hub2 } hd

/-- The hub state after a Subscribe attempt on the structured hub: the
new state on success, the unchanged state otherwise (the Go code mutates
the receiver only inside simplehub.Subscribe, which both checkHandler's
error returns and its nil-handler panic precede). -/
def structuredHub.subscribeStep (h : structuredHub) (topic : TopicPattern)
    (handlerType : HandlerType) : structuredHub :=
  match structuredHub.Subscribe h topic handlerType with
  | .ok h2 _ => h2
  | .fail _ => h
  | .panicked => h

/-! ## Object identity of the canonical map (heap model)

Go maps are reference values: the type assertion in toStringMap returns
the caller's own map object, and the assignments in Publish's merge loop
write through that reference.  To state this, map objects live in a
store indexed by addresses, and the publish path is re-traced from the
source with object identity made explicit. -/

/-- A heap of `map[string]interface{}` objects. -/
abbrev Store := List (Nat × JMap)

/-- Read the map object at an address. -/
def storeGet (st : Store) (a : Nat) : Option JMap :=
  match st with
  | [] => none
  | (a1, m1) :: rest => if a1 = a then some m1 else storeGet rest a

/-- Overwrite (or create) the map object at an address. -/
def storeSet (st : Store) (a : Nat) (m : JMap) : Store :=
  match st with
  | [] => [(a, m)]
  | (a1, m1) :: rest =>
      if a1 = a then (a, m) :: rest else (a1, m1) :: storeSet rest a m

/-- An address not yet used by the store. -/
def freshAddr (st : Store) : Nat :=
  (st.map Prod.fst).foldr max 0 + 1

/-- Publish data with map objects as references: either the caller's own
`map[string]interface{}` object at an address, or data that marshals to
a JSON object (the unmarshal step then allocates a fresh map). -/
inductive HeapData where
  | mapRef (a : Nat)
  | record (fields : JMap)
deriving DecidableEq, Repr

/-- toStringMap with object identity (structuredhub.go lines 49-69): for
data that already is a `map[string]interface{}`, the type assertion
yields the same object — the caller's address is returned unchanged; the
marshal/unmarshal path allocates a fresh map object. -/
def toStringMapHeap (st : Store) (d : HeapData) : Option (Store × Nat) :=
  match d with
  | .mapRef a => some (st, a)
  | .record fields =>
      if mapSerializable fields then
        some (storeSet st (freshAddr st) fields, freshAddr st)
      else none

/-- structuredHub.Publish with object identity (structuredhub.go lines
36-47): the merge loop's assignments `asMap[key] = value` write through
the reference obtained from toStringMap, and that same reference is the
payload delegated to the basic hub. -/
def publishHeap (anns : JMap) (st : Store) (d : HeapData) :
    Option (Store × Nat) :=
  match toStringMapHeap st d with
  | none => none
  | some (st1, a) =>
      match storeGet st1 a with
      | none => none
      | some m => some (storeSet st1 a (mergeAnnotations m anns), a)

/-! ## Operation sequences and id freshness -/

/-- One API call on a simple hub, for stating lifetime invariants. -/
inductive HubOp where
  | subOp (topic : TopicPattern)
  | unsubOp (i : Int)
  | pubOp (topic : String) (data : SimpleData)

/-- Apply one operation: the resulting hub state and the id assigned by
the operation, if it was a successful Subscribe.  Publish reads the
registry but never writes it or the counter. -/
def applyOp (h : simplehub) : HubOp → simplehub × Option Int
  | .subOp pat =>
      match simplehub.Subscribe h pat with
      | .ok (h2, hd) => (h2, some hd.id)
      | .error _ => (h, none)
  | .unsubOp i => (simplehub.unsubscribe h i, none)
  | .pubOp _ _ => (h, none)

/-- Run a sequence of operations, collecting the assigned ids in
chronological order. -/
def runOps (h : simplehub) : List HubOp → simplehub × List Int
  | [] => (h, [])
  | op :: rest =>
      let step := applyOp h op
      let r := runOps step.1 rest
      (r.1, step.2.toList ++ r.2)

/-! ## Map lemmas -/

theorem mapLookup_mapInsert_self (m : JMap) (k : String) (v : JValue) :
    mapLookup (mapInsert m k v) k = some v := by
  induction m with
  | nil => simp [mapInsert, mapLookup]
  | cons kv rest ih =>
      obtain ⟨k1, v1⟩ := kv
      by_cases hk : k1 = k
      · simp [mapInsert, mapLookup, hk]
      · simp [mapInsert, mapLookup, hk, ih]

theorem mapLookup_mapInsert_ne (m : JMap) (k1 k : String) (v : JValue)
    (hne : k1 ≠ k) : mapLookup (mapInsert m k1 v) k = mapLookup m k := by
  induction m with
  | nil => simp [mapInsert, mapLookup, hne]
  | cons kv rest ih =>
      obtain ⟨k2, v2⟩ := kv
      by_cases hk : k2 = k1
      · subst hk
        simp [mapInsert, mapLookup, hne]
      · simp [mapInsert, mapLookup, hk, ih]

theorem mergeAnnotations_lookup_some (anns : JMap) :
    ∀ (m : JMap) (k : String) (v : JValue), mapLookup m k = some v →
      mapLookup (mergeAnnotations m anns) k = some v := by
  induction anns with
  | nil => intro m k v h; simpa [mergeAnnotations] using h
  | cons kv rest ih =>
      intro m k v h
      obtain ⟨k1, v1⟩ := kv
      show mapLookup
        (mergeAnnotations
          (if (mapLookup m k1).isSome then m else mapInsert m k1 v1) rest) k
        = some v
      by_cases hp : (mapLookup m k1).isSome
      · simpa [hp] using ih m k v h
      · have hne : k1 ≠ k := by
          intro heq
          subst heq
          rw [h] at hp
          simp at hp
        have hl : mapLookup (mapInsert m k1 v1) k = some v := by
          rw [mapLookup_mapInsert_ne m k1 k v1 hne]; exact h
        simpa [hp] using ih (mapInsert m k1 v1) k v hl

theorem mergeAnnotations_lookup_none (anns : JMap) :
    ∀ (m : JMap) (k : String), mapLookup m k = none →
      mapLookup (mergeAnnotations m anns) k = mapLookup anns k := by
  induction anns with
  | nil => intro m k h; simpa [mergeAnnotations, mapLookup] using h
  | cons kv rest ih =>
      intro m k h
      obtain ⟨k1, v1⟩ := kv
      show mapLookup
        (mergeAnnotations
          (if (mapLookup m k1).isSome then m else mapInsert m k1 v1) rest) k
        = mapLookup ((k1, v1) :: rest) k
      by_cases hk : k1 = k
      · subst hk
        have hp : ¬(mapLookup m k1).isSome := by simp [h]
        have hins : mapLookup (mapInsert m k1 v1) k1 = some v1 :=
          mapLookup_mapInsert_self m k1 v1
        have := mergeAnnotations_lookup_some rest (mapInsert m k1 v1) k1 v1 hins
        rw [if_neg hp, this]
        simp [mapLookup]
      · by_cases hp : (mapLookup m k1).isSome
        · rw [if_pos hp, ih m k h]
          simp [mapLookup, hk]
        · have hl : mapLookup (mapInsert m k1 v1) k = none := by
            rw [mapLookup_mapInsert_ne m k1 k v1 hk]; exact h
          rw [if_neg hp, ih (mapInsert m k1 v1) k hl]
          simp [mapLookup, hk]

/-! ## Claim theorems -/

/-- C3: for every structured-hub Publish whose data canonicalizes to a
keyed map `m`, the payload delegated to the basic hub maps each key `k`
to `m[k]` when `k` is present in `m`, and to the annotation default for
`k` when `k` is absent from `m` (in particular when the annotations bind
`k`); caller-supplied values are never overridden by defaults. -/
theorem structured_publish_merges (h : structuredHub) (topic : String)
    (data : GoData) (m : JMap) (hm : toStringMap data = .ok m) :
    structuredHub.Publish h topic data
      = .ok (simplehub.Publish h.hub topic
              (.smap (mergeAnnotations m h.annotations)))
    ∧ ∀ k : String,
        (∀ v, mapLookup m k = some v →
          mapLookup (mergeAnnotations m h.annotations) k = some v)
        ∧ (mapLookup m k = none →
          mapLookup (mergeAnnotations m h.annotations) k
            = mapLookup h.annotations k) := by
  refine ⟨?_, ?_⟩
  · unfold structuredHub.Publish
    rw [hm]
  · intro k
    exact ⟨fun v hv => mergeAnnotations_lookup_some h.annotations m k v hv,
           fun hn => mergeAnnotations_lookup_none h.annotations m k hn⟩

/-- Witness for C3: the spec's concrete scenario — annotations
`{"app": "x"}`, published map `{"value": 1}`: the delegated payload binds
"value" to 1 (caller value preserved) and "app" to "x" (default filled
in). -/
theorem structured_publish_merges_witness :
    mapLookup (mergeAnnotations [("value", .jnum 1)] [("app", .jstr "x")])
        "value" = some (.jnum 1)
    ∧ mapLookup (mergeAnnotations [("value", .jnum 1)] [("app", .jstr "x")])
        "app" = some (.jstr "x") := by
  have h := structured_publish_merges ⟨⟨[], 0⟩, [("app", .jstr "x")]⟩
    "foo.bar" (.goMap [("value", .jnum 1)]) [("value", .jnum 1)] rfl
  exact ⟨(h.2 "value").1 (.jnum 1) rfl, (h.2 "app").2 rfl⟩

/-- C6: a structured-hub Publish whose data cannot be canonicalized into
a keyed-string map returns a non-nil error and a nil completion handle,
and hands no notification closure to any subscriber — the basic hub's
Publish is never reached. -/
theorem structured_publish_error_aborts (h : structuredHub) (topic : String)
    (data : GoData) (e : PubErr) (he : toStringMap data = .fail e) :
    structuredHub.Publish h topic data = .fail e
    ∧ (structuredHub.Publish h topic data).completerOf = none
    ∧ (structuredHub.Publish h topic data).dispatchedOf = [] := by
  have hp : structuredHub.Publish h topic data = .fail e := by
    unfold structuredHub.Publish
    rw [he]
  exact ⟨hp, by rw [hp]; rfl, by rw [hp]; rfl⟩

/-- Witness for C6: publishing the number 5 (which marshals to non-object
JSON, so unmarshalling into a generic map fails) yields the unmarshal
error, no Completer, and no dispatch. -/
theorem structured_publish_error_aborts_witness :
    structuredHub.Publish ⟨⟨[], 0⟩, []⟩ "t" (.goNonObject (.jnum 5))
        = .fail .unmarshalErr
    ∧ (structuredHub.Publish ⟨⟨[], 0⟩, []⟩ "t"
        (.goNonObject (.jnum 5))).dispatchedOf = [] := by
  have h := structured_publish_error_aborts ⟨⟨[], 0⟩, []⟩ "t"
    (.goNonObject (.jnum 5)) .unmarshalErr rfl
  exact ⟨h.1, h.2.2⟩

/-- C10: calling the structured hub's Publish with nil data does not
return a marshal error: toStringMap calls `AssignableTo` on the nil
reflect.Type obtained from nil data and panics, so no error branch of
toStringMap handles this input — the operation is not total at
data = nil. -/
theorem structured_publish_nil_panics (h : structuredHub) (topic : String) :
    toStringMap .goNil = .panicked
    ∧ (∀ e, toStringMap .goNil ≠ .fail e)
    ∧ (∀ m, toStringMap .goNil ≠ .ok m)
    ∧ structuredHub.Publish h topic .goNil = .panicked := by
  refine ⟨rfl, ?_, ?_, rfl⟩
  · intro e he
    exact TSMResult.noConfusion he
  · intro m hm
    exact TSMResult.noConfusion hm

/-- C1: Publish hands a notification closure to a registered subscription
iff the subscription's pattern matcher accepts the literal topic string;
matching is the pure function `matchTopic`, and whether a given
subscriber is notified is unchanged under any reordering of the
registry (independence of the other subscribers' registration order). -/
theorem publish_dispatch_iff_match (h : simplehub) (topic : String)
    (data : SimpleData) (s : subscriber) :
    (s ∈ (simplehub.Publish h topic data).dispatched ↔
      s ∈ h.subscribers ∧ matchTopic s topic = true)
    ∧ (∀ (h2 : simplehub) (d2 : SimpleData),
        h2.subscribers.Perm h.subscribers →
        (s ∈ (simplehub.Publish h2 topic d2).dispatched ↔
          s ∈ (simplehub.Publish h topic data).dispatched)) := by
  have key : ∀ (g : simplehub) (d : SimpleData),
      s ∈ (simplehub.Publish g topic d).dispatched ↔
        s ∈ g.subscribers ∧ matchTopic s topic = true := by
    intro g d
    simp [simplehub.Publish, List.mem_filter]
  refine ⟨key h data, ?_⟩
  intro h2 d2 hperm
  rw [key h2 d2, key h data, hperm.mem_iff]

/-- Witness for C1: two exact-pattern subscribers "a" and "b"; publishing
to topic "a" notifies the "a" subscriber and not the "b" subscriber, in
either registration order. -/
theorem publish_dispatch_iff_match_witness :
    ((⟨0, true, fun t => t == "a"⟩ : subscriber) ∈
      (simplehub.Publish
        ⟨[⟨0, true, fun t => t == "a"⟩, ⟨1, true, fun t => t == "b"⟩], 2⟩
        "a" (.sother 0)).dispatched ↔
      (⟨0, true, fun t => t == "a"⟩ : subscriber) ∈
        [⟨0, true, fun t => t == "a"⟩, ⟨1, true, fun t => t == "b"⟩]
      ∧ matchTopic ⟨0, true, fun t => t == "a"⟩ "a" = true)
    ∧ ((⟨0, true, fun t => t == "a"⟩ : subscriber) ∈
      (simplehub.Publish
        ⟨[⟨1, true, fun t => t == "b"⟩, ⟨0, true, fun t => t == "a"⟩], 2⟩
        "a" (.sother 1)).dispatched ↔
      (⟨0, true, fun t => t == "a"⟩ : subscriber) ∈
      (simplehub.Publish
        ⟨[⟨0, true, fun t => t == "a"⟩, ⟨1, true, fun t => t == "b"⟩], 2⟩
        "a" (.sother 0)).dispatched) := by
  have h := publish_dispatch_iff_match
    ⟨[⟨0, true, fun t => t == "a"⟩, ⟨1, true, fun t => t == "b"⟩], 2⟩
    "a" (.sother 0) ⟨0, true, fun t => t == "a"⟩
  exact ⟨h.1,
    h.2 ⟨[⟨1, true, fun t => t == "b"⟩, ⟨0, true, fun t => t == "a"⟩], 2⟩
      (.sother 1)
      (List.Perm.swap (⟨0, true, fun t => t == "a"⟩ : subscriber)
        (⟨1, true, fun t => t == "b"⟩ : subscriber) [])⟩

/-- C2: Publish returns a nil error and a non-nil completion handle whose
wait-group count is exactly the number of dispatched closures; the handle
resolves after `c` closure completions iff all dispatched closures are
among them (never early, and the resolution point is the single
threshold `c = n`); a Publish matching zero subscribers returns a
handle that is already resolvable at zero completions. -/
theorem publish_completion_tracks_closures (h : simplehub) (topic : String)
    (data : SimpleData) :
    (simplehub.Publish h topic data).perr = none
    ∧ (simplehub.Publish h topic data).completer
        = some ⟨(simplehub.Publish h topic data).dispatched.length⟩
    ∧ (∀ d, (simplehub.Publish h topic data).completer = some d →
        ∀ c, d.resolvedAfter c = true ↔
          (simplehub.Publish h topic data).dispatched.length ≤ c)
    ∧ ((simplehub.Publish h topic data).dispatched = [] →
        ∀ d, (simplehub.Publish h topic data).completer = some d →
          d.resolvedAfter 0 = true) := by
  refine ⟨rfl, rfl, ?_, ?_⟩
  · intro d hd c
    have hd2 := Option.some.inj hd
    subst hd2
    simp [doneHandle.resolvedAfter, simplehub.Publish]
  · intro hnil d hd
    have hd2 := Option.some.inj hd
    subst hd2
    have hlen : List.filter (fun s => matchTopic s topic) h.subscribers
        = [] := hnil
    simp [doneHandle.resolvedAfter, hlen]

/-- Witness for C2: publishing on an empty hub dispatches no closures,
returns a nil error and a non-nil handle already resolved at zero
completions. -/
theorem publish_completion_tracks_closures_witness :
    (simplehub.Publish NewSimpleHub "t" (.sother 0)).perr = none
    ∧ (simplehub.Publish NewSimpleHub "t" (.sother 0)).completer = some ⟨0⟩
    ∧ doneHandle.resolvedAfter ⟨0⟩ 0 = true := by
  have h := publish_completion_tracks_closures NewSimpleHub "t" (.sother 0)
  exact ⟨h.1, h.2.1, h.2.2.2 rfl ⟨0⟩ rfl⟩

/-! ## Unsubscribe lemmas -/

theorem removeFirst_of_not_mem (l : List subscriber) (i : Int)
    (h : ∀ s ∈ l, s.id ≠ i) : removeFirst l i = l := by
  induction l with
  | nil => rfl
  | cons s rest ih =>
      have hs : s.id ≠ i := h s (List.mem_cons_self s rest)
      simp only [removeFirst, if_neg hs]
      rw [ih (fun t ht => h t (List.mem_cons_of_mem s ht))]

theorem removeFirst_sublist (l : List subscriber) (i : Int) :
    (removeFirst l i).Sublist l := by
  induction l with
  | nil => exact List.Sublist.refl []
  | cons s rest ih =>
      by_cases hs : s.id = i
      · simp only [removeFirst, if_pos hs]
        exact List.sublist_cons_self s rest
      · simp only [removeFirst, if_neg hs]
        exact List.Sublist.cons₂ s ih

theorem removeFirst_eq_filter (l : List subscriber) (i : Int)
    (hnd : (l.map subscriber.id).Nodup) :
    removeFirst l i = l.filter (fun s => s.id != i) := by
  induction l with
  | nil => rfl
  | cons s rest ih =>
      rw [List.map_cons, List.nodup_cons] at hnd
      by_cases hs : s.id = i
      · simp only [removeFirst, if_pos hs, List.filter_cons]
        have : (s.id != i) = false := by simp [hs]
        rw [this]
        simp only [Bool.false_eq_true, if_false]
        have hrest : rest.filter (fun t => t.id != i) = rest := by
          apply List.filter_eq_self.mpr
          intro t ht
          have hne : t.id ≠ i := by
            intro hti
            apply hnd.1
            rw [hs, ← hti]
            exact List.mem_map_of_mem subscriber.id ht
          exact bne_iff_ne.mpr hne
        rw [hrest]
      · simp only [removeFirst, if_neg hs, List.filter_cons]
        have : (s.id != i) = true := by simp [hs]
        rw [this]
        simp only [if_true]
        rw [ih hnd.2]

/-- C7: for every hub state and id, Unsubscribe leaves the id counter
untouched and removes only matching subscriptions, preserving the
relative order of the rest (the remaining registry is a sublist); when
the id is not in the registry the call is a no-op on the whole hub
state; and with the hub's ids distinct (as they always are, see C8) one
Unsubscribe removes exactly the matching subscription and a second call
on the same token changes nothing. -/
theorem unsubscribe_idempotent (h : simplehub) (i : Int) :
    (simplehub.unsubscribe h i).idx = h.idx
    ∧ (simplehub.unsubscribe h i).subscribers.Sublist h.subscribers
    ∧ ((∀ s ∈ h.subscribers, s.id ≠ i) → simplehub.unsubscribe h i = h)
    ∧ ((h.subscribers.map subscriber.id).Nodup →
        (simplehub.unsubscribe h i).subscribers
          = h.subscribers.filter (fun s => s.id != i)
        ∧ simplehub.unsubscribe (simplehub.unsubscribe h i) i
            = simplehub.unsubscribe h i) := by
  refine ⟨rfl, removeFirst_sublist h.subscribers i, ?_, ?_⟩
  · intro hnm
    show { h with subscribers := removeFirst h.subscribers i } = h
    rw [removeFirst_of_not_mem h.subscribers i hnm]
  · intro hnd
    have hfil : (simplehub.unsubscribe h i).subscribers
        = h.subscribers.filter (fun s => s.id != i) :=
      removeFirst_eq_filter h.subscribers i hnd
    refine ⟨hfil, ?_⟩
    have hnone : ∀ s ∈ (simplehub.unsubscribe h i).subscribers, s.id ≠ i := by
      rw [hfil]
      intro s hs
      exact bne_iff_ne.mp (List.mem_filter.mp hs).2
    show { simplehub.unsubscribe h i with
            subscribers := removeFirst (simplehub.unsubscribe h i).subscribers i }
        = simplehub.unsubscribe h i
    rw [removeFirst_of_not_mem _ _ hnone]

/-- Witness for C7: a two-subscriber hub; unsubscribing id 0 removes
exactly that subscription keeping the other in place, a second
unsubscribe of id 0 changes nothing, and unsubscribing an absent id (7)
is a no-op. -/
theorem unsubscribe_idempotent_witness :
    simplehub.unsubscribe
        ⟨[⟨0, true, fun t => t == "a"⟩, ⟨1, true, fun t => t == "b"⟩], 2⟩ 7
      = ⟨[⟨0, true, fun t => t == "a"⟩, ⟨1, true, fun t => t == "b"⟩], 2⟩
    ∧ (simplehub.unsubscribe
        ⟨[⟨0, true, fun t => t == "a"⟩, ⟨1, true, fun t => t == "b"⟩], 2⟩
        0).subscribers
      = List.filter (fun s => s.id != 0)
          [⟨0, true, fun t => t == "a"⟩, ⟨1, true, fun t => t == "b"⟩]
    ∧ simplehub.unsubscribe
        (simplehub.unsubscribe
          ⟨[⟨0, true, fun t => t == "a"⟩, ⟨1, true, fun t => t == "b"⟩], 2⟩
          0) 0
      = simplehub.unsubscribe
          ⟨[⟨0, true, fun t => t == "a"⟩, ⟨1, true, fun t => t == "b"⟩], 2⟩
          0 := by
  refine ⟨?_, ?_, ?_⟩
  · exact (unsubscribe_idempotent
      ⟨[⟨0, true, fun t => t == "a"⟩, ⟨1, true, fun t => t == "b"⟩], 2⟩
      7).2.2.1 (by
        intro s hs
        rcases List.mem_cons.mp hs with h1 | h2
        · subst h1; decide
        · rcases List.mem_cons.mp h2 with h3 | h4
          · subst h3; decide
          · exact absurd h4 (List.not_mem_nil s))
  · exact ((unsubscribe_idempotent
      ⟨[⟨0, true, fun t => t == "a"⟩, ⟨1, true, fun t => t == "b"⟩], 2⟩
      0).2.2.2 (by simp)).1
  · exact ((unsubscribe_idempotent
      ⟨[⟨0, true, fun t => t == "a"⟩, ⟨1, true, fun t => t == "b"⟩], 2⟩
      0).2.2.2 (by simp)).2

/-! ## Id-freshness lemmas -/

theorem applyOp_idx (h : simplehub) (op : HubOp) :
    h.idx ≤ (applyOp h op).1.idx
    ∧ (∀ i, (applyOp h op).2 = some i →
        i = h.idx ∧ (applyOp h op).1.idx = h.idx + 1) := by
  cases op with
  | subOp pat =>
      by_cases hc : pat.compiles
      · constructor
        · simp [applyOp, simplehub.Subscribe, newSubscriber, hc]
        · intro i hi
          simp [applyOp, simplehub.Subscribe, newSubscriber, hc] at hi ⊢
          omega
      · constructor
        · simp [applyOp, simplehub.Subscribe, newSubscriber, hc]
        · intro i hi
          simp [applyOp, simplehub.Subscribe, newSubscriber, hc] at hi
  | unsubOp i => exact ⟨le_refl _, fun j hj => by simp [applyOp] at hj⟩
  | pubOp topic data => exact ⟨le_refl _, fun j hj => by simp [applyOp] at hj⟩

theorem runOps_ids (ops : List HubOp) : ∀ h : simplehub,
    h.idx ≤ (runOps h ops).1.idx
    ∧ (∀ i ∈ (runOps h ops).2, h.idx ≤ i ∧ i < (runOps h ops).1.idx)
    ∧ (runOps h ops).2.Pairwise (· < ·) := by
  induction ops with
  | nil =>
      intro h
      exact ⟨le_refl _, fun i hi => absurd hi (List.not_mem_nil i),
        List.Pairwise.nil⟩
  | cons op rest ih =>
      intro h
      have hop := applyOp_idx h op
      have hrest := ih (applyOp h op).1
      have hrun : runOps h (op :: rest)
          = ((runOps (applyOp h op).1 rest).1,
             (applyOp h op).2.toList ++ (runOps (applyOp h op).1 rest).2) := rfl
      rw [hrun]
      refine ⟨le_trans hop.1 hrest.1, ?_, ?_⟩
      · intro i hi
        rcases List.mem_append.mp hi with hl | hr
        · rcases hx : (applyOp h op).2 with _ | j
          · rw [hx] at hl; exact absurd hl (List.not_mem_nil i)
          · rw [hx] at hl
            have hij : i = j := by simpa using hl
            subst hij
            have := hop.2 i hx
            constructor
            · omega
            · calc i < h.idx + 1 := by omega
                _ = (applyOp h op).1.idx := this.2.symm
                _ ≤ (runOps (applyOp h op).1 rest).1.idx := hrest.1
        · have := hrest.2.1 i hr
          exact ⟨le_trans hop.1 this.1, this.2⟩
      · rw [List.pairwise_append]
        refine ⟨?_, hrest.2.2, ?_⟩
        · rcases hx : (applyOp h op).2 with _ | j
          · exact List.Pairwise.nil
          · simp
        · intro i hl j hr
          rcases hx : (applyOp h op).2 with _ | i0
          · rw [hx] at hl; exact absurd hl (List.not_mem_nil i)
          · rw [hx] at hl
            have hij : i = i0 := by simpa using hl
            subst hij
            have h1 := hop.2 i hx
            have h2 := hrest.2.1 j hr
            omega

/-- C8: over every sequence of Subscribe/Unsubscribe/Publish operations
on one hub (starting from NewSimpleHub), each successful Subscribe
assigns an id strictly greater than every id previously assigned, so the
chronological list of assigned ids is strictly increasing and no two
subscriptions registered in the hub's lifetime share an id. -/
theorem subscribe_ids_fresh (ops : List HubOp) :
    (runOps NewSimpleHub ops).2.Pairwise (· < ·)
    ∧ (runOps NewSimpleHub ops).2.Nodup := by
  have h := (runOps_ids ops NewSimpleHub).2.2
  exact ⟨h, h.imp ne_of_lt⟩

/-! ## Handler validation -/

/-- The claim's (spec-side) characterization of an acceptable structured
handler, written from the claim's words for comparison with
`checkHandler`: a function of exactly three parameters — a string-kinded
topic, a data parameter that is either the generic keyed-map type or a
struct type, and an error-typed third parameter — with no return
values. -/
def claimedValidHandler : HandlerType → Bool
  | .hfunc [a1, a2, a3] 0 =>
      argKind a1 == .kString
      && (a2 == .aMapStringInterface || argKind a2 == .kStruct)
      && (argKind a3 == .kInterface && argName a3 == "error")
  | _ => false

theorem checkHandler_claimed (t : HandlerType) :
    ((∃ rt, checkHandler t = .ok rt) ↔ claimedValidHandler t = true)
    ∧ (claimedValidHandler t = false → t ≠ .hnil →
        ∃ msg, checkHandler t = .fail (.invalidHandler msg)) := by
  cases t with
  | hnil =>
      refine ⟨?_, ?_⟩
      · simp [checkHandler, claimedValidHandler]
      · intro _ hne
        exact absurd rfl hne
  | notFunc => simp [checkHandler, claimedValidHandler]
  | hfunc ins numOut =>
      match ins, numOut with
      | [a1, a2, a3], 0 =>
          cases a1 <;> cases a2 <;> cases a3 <;>
            simp [checkHandler, claimedValidHandler, argKind, argName] <;>
            rename_i nm <;> by_cases hnm : nm = "error" <;> simp [hnm]
      | [], _ => simp [checkHandler, claimedValidHandler]
      | [a], _ => simp [checkHandler, claimedValidHandler]
      | [a, b], _ => simp [checkHandler, claimedValidHandler]
      | a :: b :: c :: d :: rest, _ =>
          simp [checkHandler, claimedValidHandler]
      | [a1, a2, a3], n + 1 => simp [checkHandler, claimedValidHandler]

/-- Counterexample for C5: the claim says every handler value not of the
valid shape makes Subscribe fail with an invalid-handler error.  A nil
handler is such a value (it is not a function of the claimed shape), yet
the source's checkHandler calls `t.Kind()` on the nil reflect.Type
obtained from `reflect.TypeOf(nil)` and panics, so Subscribe returns no
invalid-handler error at all. -/
theorem subscribe_nil_handler_panics :
    claimedValidHandler .hnil = false
    ∧ checkHandler .hnil = .panicked
    ∧ structuredHub.Subscribe ⟨⟨[], 0⟩, []⟩ ⟨true, fun _ => true⟩ .hnil
        = .panicked
    ∧ (structuredHub.Subscribe ⟨⟨[], 0⟩, []⟩ ⟨true, fun _ => true⟩
        .hnil).isInvalidHandlerFail = false :=
  ⟨rfl, rfl, rfl, rfl⟩

/-- C5 (amended): structured-hub handler registration succeeds only for
handlers of the claimed shape — `checkHandler` accepts exactly the
handler types `claimedValidHandler` describes; any other non-nil handler
type makes Subscribe fail with an invalid-handler error, leaves the hub
unchanged (no subscriber added), and a subsequent Publish to any topic
dispatches exactly what it would have before the failed Subscribe (for
an empty hub: nothing).  A nil handler instead panics inside
checkHandler, before any registration, likewise leaving the hub
unchanged. -/
theorem subscribe_validates_handler (h : structuredHub) (pat : TopicPattern)
    (t : HandlerType) :
    ((∃ rt, checkHandler t = .ok rt) ↔ claimedValidHandler t = true)
    ∧ (claimedValidHandler t = false → t ≠ .hnil →
        (∃ msg, structuredHub.Subscribe h pat t
          = .fail (.invalidHandler msg))
        ∧ structuredHub.subscribeStep h pat t = h
        ∧ ∀ (topic : String) (data : SimpleData),
            (simplehub.Publish (structuredHub.subscribeStep h pat t).hub
              topic data).dispatched
              = (simplehub.Publish h.hub topic data).dispatched)
    ∧ (t = .hnil →
        structuredHub.Subscribe h pat t = .panicked
        ∧ structuredHub.subscribeStep h pat t = h) := by
  refine ⟨(checkHandler_claimed t).1, ?_, ?_⟩
  · intro hbad hnn
    obtain ⟨msg, hmsg⟩ := (checkHandler_claimed t).2 hbad hnn
    have hsub : structuredHub.Subscribe h pat t
        = .fail (.invalidHandler msg) := by
      unfold structuredHub.Subscribe
      rw [hmsg]
    have hstep : structuredHub.subscribeStep h pat t = h := by
      unfold structuredHub.subscribeStep
      rw [hsub]
    exact ⟨⟨msg, hsub⟩, hstep, fun topic data => by rw [hstep]⟩
  · intro hn
    subst hn
    exact ⟨rfl, rfl⟩

/-- Witness for C5: the spec's concrete scenario — a handler taking two
parameters instead of three is rejected, the hub is unchanged, and a
subsequent publish on the (empty) hub dispatches to no subscriber; a nil
handler panics and also leaves the hub unchanged. -/
theorem subscribe_validates_handler_witness :
    claimedValidHandler (.hfunc [.aString, .aMapStringInterface] 0) = false
    ∧ structuredHub.subscribeStep ⟨⟨[], 0⟩, []⟩ ⟨true, fun _ => true⟩
        (.hfunc [.aString, .aMapStringInterface] 0) = ⟨⟨[], 0⟩, []⟩
    ∧ (simplehub.Publish
        (structuredHub.subscribeStep ⟨⟨[], 0⟩, []⟩ ⟨true, fun _ => true⟩
          (.hfunc [.aString, .aMapStringInterface] 0)).hub
        "foo.bar" (.sother 0)).dispatched = []
    ∧ structuredHub.Subscribe ⟨⟨[], 0⟩, []⟩ ⟨true, fun _ => false⟩ .hnil
        = .panicked := by
  have h := (subscribe_validates_handler ⟨⟨[], 0⟩, []⟩ ⟨true, fun _ => true⟩
    (.hfunc [.aString, .aMapStringInterface] 0)).2.1 rfl (by decide)
  have hn := (subscribe_validates_handler ⟨⟨[], 0⟩, []⟩ ⟨true, fun _ => false⟩
    .hnil).2.2 rfl
  exact ⟨rfl, h.2.1, (h.2.2 "foo.bar" (.sother 0)).trans rfl, hn.1⟩

/-! ## Delivery-side conversion -/

/-- Counterexample for C4: the claim says a failed conversion passes a
zero-valued record to the handler.  For the record shape
`{A string; B int}` and canonical map `{"A": "hello", "B": "x"}` the
conversion fails (the "B" entry has the wrong kind), yet per
encoding/json semantics decoding continues past the mismatched field,
so the single handler invocation carries the partially populated record
`{A: "hello", B: 0}`, which is not the zero value of the shape. -/
theorem deserialize_not_zero_on_failure :
    deserialize (.aStruct [("A", .fstr), ("B", .fint)]) "t"
        (.smap [("A", .jstr "hello"), ("B", .jstr "x")])
      = [⟨"t", .hstruct [("A", .jstr "hello"), ("B", .jnum 0)],
          some .convUnmarshal⟩]
    ∧ HandlerValue.hstruct [("A", .jstr "hello"), ("B", .jnum 0)]
        ≠ zeroValue (.aStruct [("A", .fstr), ("B", .fint)]) := by
  constructor
  · rfl
  · decide

/-- C4 (amended): for every structured-hub subscription and every
notification, the wrapping closure invokes the original handler exactly
once regardless of conversion outcome; on conversion failure the error
argument is populated and the record passed is the best-effort decoded
value — fully zero when the payload is not a canonical map or cannot be
re-marshalled, and otherwise zero in exactly the fields that failed to
decode (not necessarily the fully zero-valued record). -/
theorem deserialize_invokes_once (rt : ArgType) (t : String)
    (data : SimpleData) :
    (deserialize rt t data).length = 1
    ∧ (∀ tag, data = .sother tag →
        deserialize rt t data = [⟨t, zeroValue rt, some .badPublishData⟩])
    ∧ (∀ m, data = .smap m →
        deserialize rt t data
          = [⟨t, (toHanderType rt m).1, (toHanderType rt m).2⟩])
    ∧ (∀ m shape, data = .smap m → rt = .aStruct shape →
        (mapSerializable m = false →
          deserialize rt t data
            = [⟨t, .hstruct (zeroStruct shape), some .convMarshal⟩])
        ∧ (mapSerializable m = true →
          deserialize rt t data
            = [⟨t, .hstruct (structUnmarshal shape m).1,
                (structUnmarshal shape m).2⟩])) := by
  refine ⟨?_, ?_, ?_, ?_⟩
  · cases data <;> rfl
  · intro tag hd
    subst hd
    rfl
  · intro m hd
    subst hd
    rfl
  · intro m shape hd hrt
    subst hd
    subst hrt
    constructor
    · intro hser
      simp only [deserialize, toHanderType, hser, Bool.false_eq_true, if_false]
    · intro hser
      simp only [deserialize, toHanderType, hser, if_true]

/-- Witness for C4 (amended): a map-typed handler receiving the canonical
map `{"v": 1}` is invoked exactly once, with the map passed through and
a nil error; and a struct-typed handler receiving a non-map payload is
invoked exactly once with the zero record and a populated error. -/
theorem deserialize_invokes_once_witness :
    (deserialize .aMapStringInterface "t" (.smap [("v", .jnum 1)])).length = 1
    ∧ deserialize .aMapStringInterface "t" (.smap [("v", .jnum 1)])
        = [⟨"t", .hmap [("v", .jnum 1)], none⟩]
    ∧ deserialize (.aStruct [("A", .fstr)]) "t" (.sother 3)
        = [⟨"t", .hstruct [("A", .jstr "")], some .badPublishData⟩] := by
  have h1 := deserialize_invokes_once .aMapStringInterface "t"
    (.smap [("v", .jnum 1)])
  have h2 := deserialize_invokes_once (.aStruct [("A", .fstr)]) "t"
    (.sother 3)
  exact ⟨h1.1, (h1.2.2.1 [("v", .jnum 1)] rfl).trans rfl,
    (h2.2.1 3 rfl).trans rfl⟩

/-! ## Object identity of the caller's map -/

theorem storeGet_storeSet_self (st : Store) (a : Nat) (m : JMap) :
    storeGet (storeSet st a m) a = some m := by
  induction st with
  | nil => simp [storeSet, storeGet]
  | cons am rest ih =>
      obtain ⟨a1, m1⟩ := am
      by_cases ha : a1 = a
      · simp [storeSet, storeGet, ha]
      · simp [storeSet, storeGet, ha, ih]

/-- C9 (implicit): when the data passed to the structured hub's Publish
is already a `map[string]interface{}`, the hub uses the caller's map
object directly and the merge loop writes the absent annotation defaults
into that same object: after the call the caller's map (the object at
the caller's address) contains the annotation defaults for every key it
did not bind, and the payload delegated to the basic hub is that very
address, not a private copy. -/
theorem publish_mutates_caller_map (anns : JMap) (st : Store) (a : Nat)
    (m : JMap) (hget : storeGet st a = some m) :
    publishHeap anns st (.mapRef a)
      = some (storeSet st a (mergeAnnotations m anns), a)
    ∧ (∀ st2 addr, publishHeap anns st (.mapRef a) = some (st2, addr) →
        addr = a
        ∧ storeGet st2 a = some (mergeAnnotations m anns)
        ∧ ∀ k, mapLookup m k = none →
            mapLookup ((storeGet st2 a).getD []) k = mapLookup anns k) := by
  have hpub : publishHeap anns st (.mapRef a)
      = some (storeSet st a (mergeAnnotations m anns), a) := by
    simp only [publishHeap, toStringMapHeap, hget]
  refine ⟨hpub, ?_⟩
  intro st2 addr heq
  rw [hpub] at heq
  obtain ⟨hst2, haddr⟩ := Prod.mk.inj (Option.some.inj heq)
  subst hst2
  refine ⟨haddr.symm, storeGet_storeSet_self st a (mergeAnnotations m anns), ?_⟩
  intro k hk
  rw [storeGet_storeSet_self st a (mergeAnnotations m anns)]
  simpa using mergeAnnotations_lookup_none anns m k hk

/-- Witness for C9: the caller's map object at address 1 binds only
"value"; after Publish with annotation default `{"app": "x"}`, the object
at address 1 — the caller's own map — now binds "app" as well, and the
delegated payload address is 1. -/
theorem publish_mutates_caller_map_witness :
    publishHeap [("app", .jstr "x")] [(1, [("value", .jnum 1)])] (.mapRef 1)
      = some (storeSet [(1, [("value", .jnum 1)])] 1
          (mergeAnnotations [("value", .jnum 1)] [("app", .jstr "x")]), 1)
    ∧ mapLookup ((storeGet (storeSet [(1, [("value", .jnum 1)])] 1
          (mergeAnnotations [("value", .jnum 1)] [("app", .jstr "x")])) 1).getD [])
        "app" = mapLookup [("app", .jstr "x")] "app" := by
  have h := publish_mutates_caller_map [("app", .jstr "x")]
    [(1, [("value", .jnum 1)])] 1 [("value", .jnum 1)] rfl
  refine ⟨h.1, ?_⟩
  exact (h.2 _ 1 h.1).2.2 "app" rfl
